import Mathlib

/-!
# The control session of `ftp_server.c`

A shallow embedding of the command dispatcher, the path resolver, the directory
listers and the transfer engine of `src/ftp_server.c`.

Conventions.

* A C string is the list of its characters before the terminating NUL.
* An absent argument (`NULL`) is `none`.
* System calls are oracles collected in `Env`; the model is a function of their
  outcomes.
* A function returns `none` exactly when the C code has no defined result on that
  input: it reads through a null pointer.
* What the server hands to `send` on the accepted data connection and to `write`
  on a created file is recorded call by call; `delivered` says which bytes reach
  the other side for a given sequence of return values.
-/

namespace FtpServer

/-! ## Constants and messages -/

def BUFFER_SIZE : Nat := 1024
def MAX_PATH : Nat := 512

def MSG_USER_OK : List Char := "331 User name okay, need password\r\n".toList
def MSG_USER_LOGGED : List Char := "230 User logged in\r\n".toList
def MSG_CWD_OK : List Char := "250 Directory successfully changed\r\n".toList
def MSG_CWD_FAIL : List Char := "550 Failed to change directory\r\n".toList
def MSG_TYPE_OK : List Char := "200 Type set to I\r\n".toList
def MSG_LIST_START : List Char :=
  "150 Opening ASCII mode data connection for file list\r\n".toList
def MSG_LIST_END : List Char := "226 Transfer complete\r\n".toList
def MSG_RETR_START : List Char := "150 Opening BINARY mode data connection\r\n".toList
def MSG_RETR_END : List Char := "226 Transfer complete\r\n".toList
def MSG_STOR_START : List Char := "150 Opening BINARY mode data connection\r\n".toList
def MSG_STOR_END : List Char := "226 Transfer complete\r\n".toList
def MSG_SYNTAX_ERROR : List Char := "500 Syntax error, command unrecognized\r\n".toList
def MSG_NOT_IMPLEMENTED : List Char := "502 Command not implemented\r\n".toList
def MSG_DATA_CONN_FAIL : List Char := "425 Can't open data connection\r\n".toList
def MSG_GOODBYE : List Char := "221 Goodbye\r\n".toList

/-- The conversion `%d` of the printf family. -/
def fmt_d (n : Int) : List Char := (toString n).toList

/-- The format `MSG_PWD`, `257 "%s" is the current directory\r\n`. -/
def MSG_PWD (dir : List Char) : List Char :=
  "257 ".toList ++ Char.ofNat 34 :: dir ++ Char.ofNat 34 :: " is the current directory\r\n".toList

/-- The format `MSG_ENTER_PASV`, `227 Entering Passive Mode (%d,%d,%d,%d,%d,%d)\r\n`. -/
def MSG_ENTER_PASV (a b c d hi lo : Int) : List Char :=
  "227 Entering Passive Mode (".toList ++ fmt_d a ++ ",".toList ++ fmt_d b ++ ",".toList ++
    fmt_d c ++ ",".toList ++ fmt_d d ++ ",".toList ++ fmt_d hi ++ ",".toList ++ fmt_d lo ++
    ")\r\n".toList

/-! ## Data model -/

/-- The struct `ClientConnection`. -/
structure ClientConnection where
  control_socket : Int
  data_socket : Int
  client_addr : Nat
  current_dir : List Char
deriving DecidableEq, Repr

/-- The fields of `struct stat` that `list_directory_extend` reads. -/
structure Stat where
  st_mode : Nat
  st_uid : Nat
  st_gid : Nat
  st_mtime : Int
  st_size : Nat
deriving DecidableEq, Repr

/-- Outcomes of the system and library calls made while one command is handled. -/
structure Env where
  /-- The call `realpath(new_path, resolved_path)`: the resolved path, or `none` for `NULL`. -/
  realpath : List Char → Option (List Char)
  /-- The call `chdir(resolved_path)`: `true` when it returns 0. -/
  chdir : List Char → Bool
  /-- The call `accept(conn->data_socket, NULL, NULL)`: the new descriptor, negative on failure. -/
  accept : Int → Int
  /-- The port `ntohs(addr.sin_port)` that `getsockname` reports for the data listener. -/
  data_port : Int
  /-- The four integers `sscanf` reads from the global `server_ip`. -/
  ip : Int × Int × Int × Int
  /-- The calls `opendir` and `readdir`: the names `d_name` in enumeration order, `none` when
  `opendir` returns `NULL`. -/
  opendir : List Char → Option (List (List Char))
  /-- The call `stat(file_path, &file_stat)`: `none` when it returns -1. -/
  stat : List Char → Option Stat
  /-- The call `getpwuid`: the field `pw_name`, `none` for `NULL`. -/
  getpwuid : Nat → Option (List Char)
  /-- The call `getgrgid`: the field `gr_name`, `none` for `NULL`. -/
  getgrgid : Nat → Option (List Char)
  /-- The text `strftime` writes for `localtime(&st_mtime)` under `%y-%m-%d %H:%M`. -/
  strftime : Int → List Char
  /-- The text of the conversion `%1.f` applied to the float `st_size / 1024.0`. -/
  fmt_size : Nat → List Char
  /-- The call `open(filename, O_RDONLY)`: the content of the file, `none` when it returns -1. -/
  open_rdonly : List Char → Option (List Char)
  /-- The call `open(filename, O_WRONLY | O_CREAT | O_TRUNC, 0644)`: `true` unless it returns -1. -/
  open_wronly : List Char → Bool
  /-- The successive results of `recv` on the data connection: `some bs` when it stores the
  bytes `bs` and returns their number, `none` when it returns -1; past the end of the list it
  returns 0. -/
  recv : List (Option (List Char))

/-- What one handled command leaves behind. -/
structure Result where
  /-- The session after the command. -/
  conn : ClientConnection
  /-- The texts sent on the control socket, in order. -/
  responses : List (List Char)
  /-- The buffers handed to `send` on the accepted data connection, in order. -/
  data : List (List Char)
  /-- The file created by `receive_file` and the buffers handed to `write` on it. -/
  stored : Option (List Char × List (List Char))
  /-- The value the handler returns: `true` closes the session. -/
  terminate : Bool
deriving DecidableEq, Repr

/-! ## Library functions -/

/-- The call `snprintf(buf, size, ...)` for an expansion `s` of the format: the string left in
`buf` and the returned length of the untruncated expansion. -/
def snprintf (size : Nat) (s : List Char) : List Char × Nat :=
  (s.take (size - 1), s.length)

/-- The call `strncpy(dest, src, n)`: the characters copied into `dest`. -/
def strncpy (src : List Char) (n : Nat) : List Char :=
  src.take n

/-- The characters of a buffer up to its first NUL. -/
def c_str (buffer : List Char) : List Char :=
  buffer.takeWhile (fun c => c != Char.ofNat 0)

/-- The call `strtok` on the text `s` left to scan: the token, `none` for `NULL`, and the text
left for the next call. Leading delimiters are skipped; the delimiter that ends the token is
overwritten and stepped over. -/
def strtok (s : List Char) (delim : List Char) : Option (List Char) × List Char :=
  match s.dropWhile (fun c => delim.contains c) with
  | [] => (none, [])
  | c :: cs =>
    (some ((c :: cs).takeWhile (fun x => !delim.contains x)),
      ((c :: cs).dropWhile (fun x => !delim.contains x)).drop 1)

/-- The call `strcasecmp` in the C locale: zero exactly when the strings agree after
`tolower`, otherwise the sign of their order. -/
def strcasecmp (a b : List Char) : Int :=
  if a.map Char.toLower = b.map Char.toLower then 0
  else if a.map Char.toLower < b.map Char.toLower then -1 else 1

/-- The function `send_response`: the text `vsnprintf` leaves in the 1024-byte buffer, which is
sent on the control socket. -/
def send_response (msg : List Char) : List Char :=
  (snprintf BUFFER_SIZE msg).1

/-- The bytes that reach the other side of a descriptor when the `k`-th call of `send` (or
`write`), asked for `n` bytes, returns `ret k n`: the first `ret k n` bytes of its buffer,
none when the value is negative. -/
def delivered (ret : Nat → Nat → Int) : Nat → List (List Char) → List Char
  | _, [] => []
  | k, buffer :: calls => buffer.take (ret k buffer.length).toNat ++ delivered ret (k + 1) calls

/-! ## Directory listers -/

/-- The loop of `list_directory` over the entries `readdir` returns: the buffers handed to
`send`. -/
def list_directory_loop : List (List Char) → List (List Char)
  | [] => []
  | d_name :: entries =>
    if d_name = ".".toList ∨ d_name = "..".toList then list_directory_loop entries
    else (snprintf BUFFER_SIZE (d_name ++ "\r\n".toList)).1 :: list_directory_loop entries

/-- The function `list_directory`: the buffers handed to `send` on `socket`. -/
def list_directory (env : Env) (_socket : Int) (path : List Char) : List (List Char) :=
  match env.opendir path with
  | none => []
  | some entries => list_directory_loop entries

/-- The macro `S_ISDIR`. -/
def S_ISDIR (mode : Nat) : Bool := mode &&& 0o170000 == 0o040000
def S_IRUSR : Nat := 0o400
def S_IWUSR : Nat := 0o200
def S_IXUSR : Nat := 0o100
def S_IRGRP : Nat := 0o040
def S_IWGRP : Nat := 0o020
def S_IXGRP : Nat := 0o010
def S_IROTH : Nat := 0o004
def S_IWOTH : Nat := 0o002
def S_IXOTH : Nat := 0o001

/-- The ten characters `list_directory_extend` formats into `permissions`. -/
def permissions (st_mode : Nat) : List Char :=
  (snprintf 11
    [ if S_ISDIR st_mode then 'd' else '-',
      if st_mode &&& S_IRUSR != 0 then 'r' else '-',
      if st_mode &&& S_IWUSR != 0 then 'w' else '-',
      if st_mode &&& S_IXUSR != 0 then 'x' else '-',
      if st_mode &&& S_IRGRP != 0 then 'r' else '-',
      if st_mode &&& S_IWGRP != 0 then 'w' else '-',
      if st_mode &&& S_IXGRP != 0 then 'x' else '-',
      if st_mode &&& S_IROTH != 0 then 'r' else '-',
      if st_mode &&& S_IWOTH != 0 then 'w' else '-',
      if st_mode &&& S_IXOTH != 0 then 'x' else '-' ]).1

/-- The loop of `list_directory_extend` over the entries `readdir` returns. -/
def list_directory_extend_loop (env : Env) (path : List Char) :
    List (List Char) → List (List Char)
  | [] => []
  | d_name :: entries =>
    let file_path := (snprintf BUFFER_SIZE (path ++ "/".toList ++ d_name)).1
    match env.stat file_path with
    | none => list_directory_extend_loop env path entries
    | some file_stat =>
      let pw := env.getpwuid file_stat.st_uid
      let gr := env.getgrgid file_stat.st_gid
      let time_buffer := env.strftime file_stat.st_mtime
      let buffer := (snprintf BUFFER_SIZE
        (permissions file_stat.st_mode ++ " ".toList ++ pw.getD [] ++ " ".toList ++
          gr.getD [] ++ " \t".toList ++ time_buffer ++ "\t".toList ++
          env.fmt_size file_stat.st_size ++ "K\t".toList ++ d_name ++ "\r\n".toList)).1
      buffer :: list_directory_extend_loop env path entries

/-- The function `list_directory_extend`: the buffers handed to `send` on `socket`. -/
def list_directory_extend (env : Env) (_socket : Int) (path : List Char) : List (List Char) :=
  match env.opendir path with
  | none => []
  | some entries => list_directory_extend_loop env path entries

/-! ## Transfer engine -/

/-- The loop of `send_file`: `read` fills the buffer with the next `BUFFER_SIZE` bytes of the
file (fewer at its end) and the loop hands them to one `send`, whose result is not looked at;
it ends when `read` returns 0. The first argument bounds the number of iterations. -/
def send_file_loop : Nat → List Char → List (List Char)
  | 0, _ => []
  | fuel + 1, rest =>
    let buffer := rest.take BUFFER_SIZE
    let bytes_read := buffer.length
    if bytes_read > 0 then buffer :: send_file_loop fuel (rest.drop BUFFER_SIZE) else []

/-- The function `send_file`: the buffers handed to `send` on `socket`. Every iteration
consumes at least one byte of the file, so its length bounds the iterations. -/
def send_file (env : Env) (_socket : Int) (filename : List Char) : List (List Char) :=
  match env.open_rdonly filename with
  | none => []
  | some content => send_file_loop (content.length + 1) content

/-- The loop of `receive_file` over the successive results of `recv`: each positive result is
handed to one `write`, whose result is not looked at; the loop ends at the first result that
is not positive. -/
def receive_file_loop : List (Option (List Char)) → List (List Char)
  | [] => []
  | none :: _ => []
  | some buffer :: rest =>
    if buffer.length > 0 then buffer :: receive_file_loop rest else []

/-- The function `receive_file`: `none` when the file cannot be created, otherwise the
buffers handed to `write` on it. -/
def receive_file (env : Env) (_socket : Int) (filename : List Char) :
    Option (List (List Char)) :=
  if env.open_wronly filename then some (receive_file_loop env.recv) else none

/-! ## Path resolver -/

/-- The function `change_directory`: the session afterwards and the responses sent. It has no
defined result when `path` is `NULL` (it reads `path[0]`). The length of what `realpath`
resolves to is not checked: `chdir` gets the resolved path and `strncpy` keeps its first
`MAX_PATH` characters. -/
def change_directory (env : Env) (conn : ClientConnection) (path : Option (List Char)) :
    Option (ClientConnection × List (List Char)) :=
  match path with
  | none => none
  | some path =>
    let (new_path, result) :=
      if path.head? = some '/' then snprintf MAX_PATH path
      else snprintf MAX_PATH (conn.current_dir ++ "/".toList ++ path)
    if result ≥ MAX_PATH then some (conn, [send_response MSG_CWD_FAIL])
    else
      match env.realpath new_path with
      | none => some (conn, [send_response MSG_CWD_FAIL])
      | some resolved_path =>
        if env.chdir resolved_path then
          some ({ conn with current_dir := strncpy resolved_path MAX_PATH },
            [send_response MSG_CWD_OK])
        else some (conn, [send_response MSG_CWD_FAIL])

/-! ## Command handlers -/

def cmd_user (_env : Env) (conn : ClientConnection) (_arg : Option (List Char)) :
    Option Result :=
  some { conn := conn, responses := [send_response MSG_USER_OK], data := [], stored := none,
         terminate := false }

def cmd_pass (_env : Env) (conn : ClientConnection) (_arg : Option (List Char)) :
    Option Result :=
  some { conn := conn, responses := [send_response MSG_USER_LOGGED], data := [],
         stored := none, terminate := false }

def cmd_pwd (_env : Env) (conn : ClientConnection) (_arg : Option (List Char)) :
    Option Result :=
  some { conn := conn, responses := [send_response (MSG_PWD conn.current_dir)], data := [],
         stored := none, terminate := false }

def cmd_cwd (env : Env) (conn : ClientConnection) (arg : Option (List Char)) :
    Option Result :=
  match change_directory env conn arg with
  | none => none
  | some (conn', responses) =>
    some { conn := conn', responses := responses, data := [], stored := none,
           terminate := false }

def cmd_type (_env : Env) (conn : ClientConnection) (_arg : Option (List Char)) :
    Option Result :=
  some { conn := conn, responses := [send_response MSG_TYPE_OK], data := [], stored := none,
         terminate := false }

/-- The two port fields `data_port / 256` and `data_port % 256` of the PASV response. -/
def pasv_port_fields (data_port : Int) : Int × Int :=
  (Int.tdiv data_port 256, Int.tmod data_port 256)

def cmd_pasv (env : Env) (conn : ClientConnection) (_arg : Option (List Char)) :
    Option Result :=
  let data_port := env.data_port
  let ip := env.ip
  some { conn := conn,
         responses := [send_response (MSG_ENTER_PASV ip.1 ip.2.1 ip.2.2.1 ip.2.2.2
           (pasv_port_fields data_port).1 (pasv_port_fields data_port).2)],
         data := [], stored := none, terminate := false }

def cmd_nlst (env : Env) (conn : ClientConnection) (_arg : Option (List Char)) :
    Option Result :=
  let data_conn := env.accept conn.data_socket
  if data_conn < 0 then
    some { conn := conn,
           responses := [send_response MSG_LIST_START, send_response MSG_DATA_CONN_FAIL],
           data := [], stored := none, terminate := false }
  else
    some { conn := conn,
           responses := [send_response MSG_LIST_START, send_response MSG_RETR_END],
           data := list_directory env data_conn conn.current_dir, stored := none,
           terminate := false }

def cmd_dir (env : Env) (conn : ClientConnection) (_arg : Option (List Char)) :
    Option Result :=
  let data_conn := env.accept conn.data_socket
  if data_conn < 0 then
    some { conn := conn,
           responses := [send_response MSG_LIST_START, send_response MSG_DATA_CONN_FAIL],
           data := [], stored := none, terminate := false }
  else
    some { conn := conn,
           responses := [send_response MSG_LIST_START, send_response MSG_RETR_END],
           data := list_directory_extend env data_conn conn.current_dir, stored := none,
           terminate := false }

/-- The handler `cmd_retr`. With the data connection accepted it formats `arg` under `%s`,
which has no defined result for `NULL`. -/
def cmd_retr (env : Env) (conn : ClientConnection) (arg : Option (List Char)) :
    Option Result :=
  let data_conn := env.accept conn.data_socket
  if data_conn < 0 then
    some { conn := conn,
           responses := [send_response MSG_STOR_START, send_response MSG_DATA_CONN_FAIL],
           data := [], stored := none, terminate := false }
  else
    match arg with
    | none => none
    | some arg =>
      let full_path := (snprintf MAX_PATH (conn.current_dir ++ "/".toList ++ arg)).1
      some { conn := conn,
             responses := [send_response MSG_STOR_START, send_response MSG_RETR_END],
             data := send_file env data_conn full_path, stored := none, terminate := false }

/-- The loop of `cmd_mretr` over the tokens `strtok_r` cuts from `args_copy` at spaces: the
responses sent and the buffers handed to `send`. The first argument bounds the number of
iterations. -/
def cmd_mretr_loop (env : Env) (conn : ClientConnection) :
    Nat → List Char → List (List Char) × List (List Char)
  | 0, _ => ([], [])
  | fuel + 1, s =>
    match strtok s " ".toList with
    | (none, _) => ([], [])
    | (some token, saveptr) =>
      let data_conn := env.accept conn.data_socket
      let rest := cmd_mretr_loop env conn fuel saveptr
      if data_conn < 0 then
        (send_response MSG_STOR_START :: send_response MSG_DATA_CONN_FAIL :: rest.1, rest.2)
      else
        let full_path := (snprintf MAX_PATH (conn.current_dir ++ "/".toList ++ token)).1
        (send_response MSG_STOR_START :: send_response MSG_RETR_END :: rest.1,
          send_file env data_conn full_path ++ rest.2)

/-- The handler `cmd_mretr`, which no entry of `ftp_commands` refers to. It copies `arg` with
`strncpy`, which has no defined result for `NULL`. Every token takes at least one character
of the copy, so its length bounds the iterations. -/
def cmd_mretr (env : Env) (conn : ClientConnection) (arg : Option (List Char)) :
    Option Result :=
  match arg with
  | none => none
  | some arg =>
    let args_copy := strncpy arg (MAX_PATH - 1)
    let out := cmd_mretr_loop env conn (args_copy.length + 1) args_copy
    some { conn := conn, responses := out.1, data := out.2, stored := none,
           terminate := false }

/-- The handler `cmd_stor`. With the data connection accepted it formats `arg` under `%s`,
which has no defined result for `NULL`. -/
def cmd_stor (env : Env) (conn : ClientConnection) (arg : Option (List Char)) :
    Option Result :=
  let data_conn := env.accept conn.data_socket
  if data_conn < 0 then
    some { conn := conn,
           responses := [send_response MSG_STOR_START, send_response MSG_DATA_CONN_FAIL],
           data := [], stored := none, terminate := false }
  else
    match arg with
    | none => none
    | some arg =>
      let full_path := (snprintf MAX_PATH (conn.current_dir ++ "/".toList ++ arg)).1
      some { conn := conn,
             responses := [send_response MSG_STOR_START, send_response MSG_STOR_END],
             data := [],
             stored := (receive_file env data_conn full_path).map (fun w => (full_path, w)),
             terminate := false }

def cmd_quit (_env : Env) (conn : ClientConnection) (_arg : Option (List Char)) :
    Option Result :=
  some { conn := conn, responses := [send_response MSG_GOODBYE], data := [], stored := none,
         terminate := true }

/-! ## Command dispatcher -/

/-- The struct `FtpCommand`. -/
structure FtpCommand where
  command : List Char
  handler : Env → ClientConnection → Option (List Char) → Option Result

/-- The table `ftp_commands`, without its terminating null entry. -/
def ftp_commands : List FtpCommand :=
  [ ⟨"USER".toList, cmd_user⟩, ⟨"PASS".toList, cmd_pass⟩, ⟨"PWD".toList, cmd_pwd⟩,
    ⟨"CWD".toList, cmd_cwd⟩, ⟨"TYPE".toList, cmd_type⟩, ⟨"PASV".toList, cmd_pasv⟩,
    ⟨"NLST".toList, cmd_nlst⟩, ⟨"RETR".toList, cmd_retr⟩, ⟨"STOR".toList, cmd_stor⟩,
    ⟨"QUIT".toList, cmd_quit⟩, ⟨"LIST".toList, cmd_dir⟩ ]

/-- The verb and the argument the two `strtok` calls of `handle_command` take from the
buffer. -/
def parse_line (buffer : List Char) : Option (List Char) × Option (List Char) :=
  let first := strtok (c_str buffer) " \r\n".toList
  let command := first.1
  let arg := (strtok first.2 "\r\n".toList).1
  (command, arg)

/-- The function `handle_command`. -/
def handle_command (env : Env) (conn : ClientConnection) (buffer : List Char) :
    Option Result :=
  let (command, arg) := parse_line buffer
  match command with
  | none =>
    some { conn := conn, responses := [send_response MSG_SYNTAX_ERROR], data := [],
           stored := none, terminate := false }
  | some command =>
    match ftp_commands.find? (fun cmd => strcasecmp command cmd.command == 0) with
    | some cmd => cmd.handler env conn arg
    | none =>
      some { conn := conn, responses := [send_response MSG_NOT_IMPLEMENTED], data := [],
             stored := none, terminate := false }

/-! ## Sample inputs -/

/-- A sample environment: every path resolves to `/srv`, every call succeeds, the data
peer sends `hello` and closes. -/
def env0 : Env where
  realpath := fun _ => some "/srv".toList
  chdir := fun _ => true
  accept := fun _ => 5
  data_port := 50000
  ip := (192, 168, 1, 10)
  opendir := fun _ =>
    some [".".toList, "..".toList, "a.txt".toList, ".hidden".toList, "...".toList]
  stat := fun _ => some ⟨0o040755, 0, 0, 0, 2048⟩
  getpwuid := fun _ => some "root".toList
  getgrgid := fun _ => none
  strftime := fun _ => "24-01-01 00:00".toList
  fmt_size := fun n => fmt_d ((n + 512) / 1024 : Nat)
  open_rdonly := fun _ => some "content".toList
  open_wronly := fun _ => true
  recv := [some "hello".toList]

/-- A sample session in `/home/ftp`. -/
def conn0 : ClientConnection :=
  { control_socket := 4, data_socket := 3, client_addr := 0, current_dir := "/home/ftp".toList }

/-- A sample environment for a round trip: the file read holds `content`, the peer sends it
back as `con` and `tent`. -/
def env2 : Env := { env0 with recv := [some "con".toList, some "tent".toList] }

/-- A sample environment in which every path is its own canonical form. -/
def env3 : Env := { env0 with realpath := fun p => some p }

/-- A sample environment in which `accept` on the data listener fails. -/
def env4 : Env := { env0 with accept := fun _ => -1 }

/-- A canonical path of 600 characters: three directories with names of 199 characters. -/
def deep_path : List Char :=
  '/' :: List.replicate 199 'a' ++ '/' :: List.replicate 199 'b' ++ '/' :: List.replicate 199 'c'

/-- A sample environment in which every path resolves to `deep_path`, as a symbolic link to
that directory does. -/
def env5 : Env := { env0 with realpath := fun _ => some deep_path }

/-! ## Fixed responses -/

@[simp] theorem send_response_cwd_ok : send_response MSG_CWD_OK = MSG_CWD_OK := by decide
@[simp] theorem send_response_cwd_fail : send_response MSG_CWD_FAIL = MSG_CWD_FAIL := by decide
@[simp] theorem send_response_goodbye : send_response MSG_GOODBYE = MSG_GOODBYE := by decide
@[simp] theorem send_response_data_conn_fail :
    send_response MSG_DATA_CONN_FAIL = MSG_DATA_CONN_FAIL := by decide
@[simp] theorem send_response_list_start :
    send_response MSG_LIST_START = MSG_LIST_START := by decide
@[simp] theorem send_response_stor_start :
    send_response MSG_STOR_START = MSG_STOR_START := by decide
@[simp] theorem send_response_retr_end : send_response MSG_RETR_END = MSG_RETR_END := by decide
@[simp] theorem send_response_stor_end : send_response MSG_STOR_END = MSG_STOR_END := by decide

theorem msg_cwd_ok_ne_list : [MSG_CWD_OK] ≠ [MSG_CWD_FAIL] := by decide

/-! ## Path resolver -/

/-- The path `change_directory` builds is the untruncated expansion whenever the length
check lets it through. -/
theorem snprintf_fits (size : Nat) (s : List Char) (h : ¬ (snprintf size s).2 ≥ size) :
    (snprintf size s).1 = s := by
  unfold snprintf at *
  simp only [ge_iff_le, not_le] at h
  exact List.take_of_length_le (by omega)

/-- The cases of `change_directory` on a present argument, with `target` the expansion of the
format. -/
theorem change_directory_cases (env : Env) (conn : ClientConnection) (arg : List Char) :
    change_directory env conn (some arg) =
      (let target := if arg.head? = some '/' then arg else conn.current_dir ++ ['/'] ++ arg
       if MAX_PATH ≤ target.length then some (conn, [MSG_CWD_FAIL])
       else match env.realpath target with
         | none => some (conn, [MSG_CWD_FAIL])
         | some r =>
           if env.chdir r then
             some ({ conn with current_dir := r.take MAX_PATH }, [MSG_CWD_OK])
           else some (conn, [MSG_CWD_FAIL])) := by
  simp only [change_directory, send_response_cwd_ok, send_response_cwd_fail, strncpy]
  by_cases hs : arg.head? = some '/'
  · simp only [hs, if_true]
    by_cases hl : (snprintf MAX_PATH arg).2 ≥ MAX_PATH
    · have hl' : MAX_PATH ≤ arg.length := hl
      simp [hl, hl']
    · have hl' : ¬ MAX_PATH ≤ arg.length := hl
      rw [if_neg hl, if_neg hl', snprintf_fits _ _ hl]
  · simp only [hs, if_false]
    by_cases hl : (snprintf MAX_PATH (conn.current_dir ++ "/".toList ++ arg)).2 ≥ MAX_PATH
    · have hl' : MAX_PATH ≤ (conn.current_dir ++ ['/'] ++ arg).length := hl
      simp only [hl, hl']
      simp
    · have hl' : ¬ MAX_PATH ≤ (conn.current_dir ++ ['/'] ++ arg).length := hl
      rw [if_neg hl, if_neg hl', snprintf_fits _ _ hl]
      rfl

/-- C1: the claim that after a reported success (250) the working directory is what
`realpath` returns for the target fails on the code. What `change_directory` stores is the
first `MAX_PATH` characters of that path: `resolved_path` has room for `MAX_PATH` bytes, its
length is never checked and `strncpy` copies `MAX_PATH` bytes. The target is the argument
itself when it begins with `/` and otherwise the previous working directory, one `/` and the
argument. -/
theorem change_directory_success_keeps_max_path (env : Env) (conn conn' : ClientConnection)
    (arg : List Char) (responses : List (List Char))
    (h : change_directory env conn (some arg) = some (conn', responses))
    (hok : responses = [MSG_CWD_OK]) :
    ∃ r, env.realpath
          (if arg.head? = some '/' then arg else conn.current_dir ++ ['/'] ++ arg) = some r ∧
      env.chdir r = true ∧ conn'.current_dir = r.take MAX_PATH := by
  rw [change_directory_cases] at h
  generalize (if arg.head? = some '/' then arg else conn.current_dir ++ ['/'] ++ arg) = target
    at h ⊢
  subst hok
  simp only at h
  split at h
  · simp only [Option.some.injEq, Prod.mk.injEq] at h
    exact absurd h.2.symm msg_cwd_ok_ne_list
  · split at h
    · simp only [Option.some.injEq, Prod.mk.injEq] at h
      exact absurd h.2.symm msg_cwd_ok_ne_list
    · rename_i r hr
      split at h
      · rename_i hch
        simp only [Option.some.injEq, Prod.mk.injEq] at h
        exact ⟨r, hr, hch, by rw [← h.1]⟩
      · simp only [Option.some.injEq, Prod.mk.injEq] at h
        exact absurd h.2.symm msg_cwd_ok_ne_list

theorem deep_path_take : (deep_path.take MAX_PATH).length = 512 ∧ deep_path.length = 600 := by
  have hlen : deep_path.length = 600 := by
    unfold deep_path
    simp only [List.length_cons, List.length_append, List.length_replicate]
  refine ⟨?_, hlen⟩
  rw [List.length_take, hlen]
  decide

theorem change_directory_success_keeps_max_path_witness :
    change_directory env5 conn0 (some "deep".toList) =
        some ({ conn0 with current_dir := deep_path.take MAX_PATH }, [MSG_CWD_OK]) ∧
      env5.realpath "/home/ftp/deep".toList = some deep_path ∧
      deep_path.take MAX_PATH ≠ deep_path ∧
      ∃ r, env5.realpath
            (if "deep".toList.head? = some '/' then "deep".toList
              else conn0.current_dir ++ ['/'] ++ "deep".toList) = some r ∧
        env5.chdir r = true ∧
        ({ conn0 with current_dir := deep_path.take MAX_PATH } : ClientConnection).current_dir =
          r.take MAX_PATH :=
  ⟨rfl, rfl,
   fun heq => absurd (congrArg List.length heq) (by
     rw [deep_path_take.1, deep_path_take.2]
     decide),
   change_directory_success_keeps_max_path env5 conn0
     { conn0 with current_dir := deep_path.take MAX_PATH } "deep".toList [MSG_CWD_OK] rfl rfl⟩

/-- C3: for a data port between 0 and 65535 the two port fields of the PASV response,
`data_port / 256` and `data_port % 256`, lie between 0 and 255 and decode to the port:
`256 * hi + lo = data_port`; they are the last two numbers of the response `cmd_pasv` sends. -/
theorem pasv_port_fields_decode (env : Env) (conn : ClientConnection)
    (arg : Option (List Char)) (h0 : 0 ≤ env.data_port) (h1 : env.data_port ≤ 65535) :
    0 ≤ (pasv_port_fields env.data_port).1 ∧ (pasv_port_fields env.data_port).1 ≤ 255 ∧
      0 ≤ (pasv_port_fields env.data_port).2 ∧ (pasv_port_fields env.data_port).2 ≤ 255 ∧
      256 * (pasv_port_fields env.data_port).1 + (pasv_port_fields env.data_port).2 =
        env.data_port ∧
      cmd_pasv env conn arg =
        some { conn := conn,
               responses := [send_response (MSG_ENTER_PASV env.ip.1 env.ip.2.1 env.ip.2.2.1
                 env.ip.2.2.2 (pasv_port_fields env.data_port).1
                 (pasv_port_fields env.data_port).2)],
               data := [], stored := none, terminate := false } := by
  unfold pasv_port_fields
  simp only [Int.tdiv_eq_ediv h0 (by decide : (0 : Int) ≤ 256),
    Int.tmod_eq_emod h0 (by decide : (0 : Int) ≤ 256)]
  refine ⟨by omega, by omega, by omega, by omega, by omega, ?_⟩
  simp only [cmd_pasv, pasv_port_fields, Int.tdiv_eq_ediv h0 (by decide : (0 : Int) ≤ 256),
    Int.tmod_eq_emod h0 (by decide : (0 : Int) ≤ 256)]

theorem pasv_port_fields_decode_witness :
    pasv_port_fields 50000 = (195, 80) ∧ 256 * (195 : Int) + 80 = 50000 ∧
      (cmd_pasv env0 conn0 none).map Result.responses =
        some ["227 Entering Passive Mode (192,168,1,10,195,80)\r\n".toList] :=
  have h := pasv_port_fields_decode env0 conn0 none (by decide) (by decide)
  ⟨by decide, h.2.2.2.2.1, by rw [h.2.2.2.2.2]; decide⟩

/-! ## Transfer engine -/

/-- With enough iterations the buffers `send_file_loop` hands to `send` are the file cut
into consecutive pieces. -/
theorem send_file_loop_flatten (fuel : Nat) (rest : List Char) (h : rest.length < fuel) :
    (send_file_loop fuel rest).flatten = rest := by
  induction fuel generalizing rest with
  | zero => omega
  | succ fuel ih =>
    unfold send_file_loop
    simp only
    by_cases hpos : (rest.take BUFFER_SIZE).length > 0
    · rw [if_pos hpos, List.flatten_cons, ih]
      · exact List.take_append_drop _ _
      · have : 0 < rest.length := by
          rcases rest with _ | ⟨c, cs⟩
          · simp at hpos
          · simp
        rw [List.length_drop]
        unfold BUFFER_SIZE
        omega
    · rw [if_neg hpos]
      have : rest = [] := by
        rcases rest with _ | ⟨c, cs⟩
        · rfl
        · exact absurd (by simp [BUFFER_SIZE]) hpos
      simp [this]

/-- Every buffer `send_file_loop` hands to `send` holds between 1 and `BUFFER_SIZE` bytes. -/
theorem send_file_loop_chunk_size (fuel : Nat) (rest : List Char) :
    ∀ buffer ∈ send_file_loop fuel rest, 0 < buffer.length ∧ buffer.length ≤ BUFFER_SIZE := by
  induction fuel generalizing rest with
  | zero => intro b hb; simp [send_file_loop] at hb
  | succ fuel ih =>
    intro b hb
    unfold send_file_loop at hb
    simp only at hb
    split at hb
    · rename_i hpos
      rcases List.mem_cons.mp hb with hb | hb
      · subst hb
        exact ⟨hpos, by rw [List.length_take]; exact Nat.min_le_left _ _⟩
      · exact ih _ b hb
    · simp at hb

/-- The buffers `send_file` hands to `send` are the file cut into consecutive pieces. -/
theorem send_file_flatten (env : Env) (socket : Int) (filename content : List Char)
    (h : env.open_rdonly filename = some content) :
    (send_file env socket filename).flatten = content := by
  unfold send_file
  rw [h]
  exact send_file_loop_flatten _ _ (Nat.lt_succ_self _)

/-- The buffers `receive_file_loop` hands to `write` are the chunks `recv` returned, as long
as none is empty. -/
theorem receive_file_loop_chunks (chunks : List (List Char))
    (h : ∀ c ∈ chunks, 0 < c.length) :
    receive_file_loop (chunks.map some) = chunks := by
  induction chunks with
  | nil => rfl
  | cons c cs ih =>
    have hc : 0 < c.length := h c (List.mem_cons_self _ _)
    simp only [List.map_cons, receive_file_loop, gt_iff_lt, hc, if_true]
    rw [ih (fun d hd => h d (List.mem_cons_of_mem _ hd))]

/-- When every call transfers its whole buffer the bytes delivered are the buffers in
sequence. -/
theorem delivered_all (ret : Nat → Nat → Int) (hret : ∀ k n, ret k n = n) (k : Nat)
    (calls : List (List Char)) : delivered ret k calls = calls.flatten := by
  induction calls generalizing k with
  | nil => rfl
  | cons b cs ih =>
    simp only [delivered, List.flatten_cons, hret, Int.toNat_ofNat, List.take_length, ih]

/-- The bytes delivered are never more than the bytes handed over. -/
theorem delivered_length_le (ret : Nat → Nat → Int) (k : Nat) (calls : List (List Char)) :
    (delivered ret k calls).length ≤ calls.flatten.length := by
  induction calls generalizing k with
  | nil => simp [delivered]
  | cons b cs ih =>
    simp only [delivered, List.flatten_cons, List.length_append, List.length_take]
    have := ih (k + 1)
    omega

/-- The bytes delivered are all the bytes handed over exactly when every call transferred its
whole buffer. -/
theorem delivered_eq_flatten_iff (ret : Nat → Nat → Int) (k : Nat)
    (calls : List (List Char)) :
    delivered ret k calls = calls.flatten ↔
      ∀ i (h : i < calls.length),
        (calls.get ⟨i, h⟩).length ≤ (ret (k + i) (calls.get ⟨i, h⟩).length).toNat := by
  induction calls generalizing k with
  | nil => simp [delivered]
  | cons b cs ih =>
    simp only [delivered, List.flatten_cons]
    constructor
    · intro heq i hi
      have hlen := congrArg List.length heq
      simp only [List.length_append, List.length_take] at hlen
      have hle := delivered_length_le ret (k + 1) cs
      have hb : b.length ≤ (ret k b.length).toNat := by omega
      have htake : b.take (ret k b.length).toNat = b := List.take_of_length_le hb
      rw [htake] at heq
      have hrest := (ih (k + 1)).mp (List.append_cancel_left heq)
      rcases i with _ | i
      · simpa using hb
      · have := hrest i (by simpa using hi)
        simpa [Nat.add_assoc, Nat.add_comm 1 i] using this
    · intro hall
      have hb : b.length ≤ (ret k b.length).toNat := by simpa using hall 0 (by simp)
      rw [List.take_of_length_le hb]
      congr 1
      refine (ih (k + 1)).mpr ?_
      intro i hi
      have := hall (i + 1) (by simpa using hi)
      simpa [Nat.add_assoc, Nat.add_comm 1 i] using this

/-- C4: for every file content, when every `send` and `write` transfers its whole buffer
and the peer sends the same bytes back cut into any sequence of non-empty chunks of at most
`BUFFER_SIZE` bytes, the bytes `send_file` puts on the data connection are the bytes of the
file in order and the file `receive_file` writes holds the same bytes. -/
theorem retr_stor_round_trip (env : Env) (socket socket' : Int)
    (filename filename' content : List Char) (chunks : List (List Char))
    (send_ret write_ret : Nat → Nat → Int)
    (hopen : env.open_rdonly filename = some content)
    (hcreate : env.open_wronly filename' = true)
    (hsend : ∀ k n, send_ret k n = n) (hwrite : ∀ k n, write_ret k n = n)
    (hsize : ∀ c ∈ chunks, 0 < c.length ∧ c.length ≤ BUFFER_SIZE)
    (hsame : chunks.flatten = delivered send_ret 0 (send_file env socket filename))
    (hrecv : env.recv = chunks.map some) :
    delivered send_ret 0 (send_file env socket filename) = content ∧
      (receive_file env socket' filename').map (delivered write_ret 0) = some content := by
  have hout : delivered send_ret 0 (send_file env socket filename) = content := by
    rw [delivered_all send_ret hsend, send_file_flatten env socket filename content hopen]
  refine ⟨hout, ?_⟩
  unfold receive_file
  rw [hcreate, hrecv, receive_file_loop_chunks chunks (fun c hc => (hsize c hc).1)]
  simp only [if_true, Option.map_some']
  rw [delivered_all write_ret hwrite, hsame, hout]

theorem retr_stor_round_trip_witness :
    delivered (fun _ n => (n : Int)) 0 (send_file env2 5 "/home/ftp/a".toList) =
        "content".toList ∧
      (receive_file env2 6 "/home/ftp/b".toList).map (delivered (fun _ n => (n : Int)) 0) =
        some "content".toList :=
  retr_stor_round_trip env2 5 6 "/home/ftp/a".toList "/home/ftp/b".toList "content".toList
    ["con".toList, "tent".toList] (fun _ n => (n : Int)) (fun _ n => (n : Int)) rfl rfl
    (fun _ _ => rfl) (fun _ _ => rfl) (by decide) (by decide) rfl

/-! ## Splitting the command line -/

theorem strtok_none (s delim : List Char) (h : ∀ c ∈ s, c ∈ delim) :
    strtok s delim = (none, []) := by
  unfold strtok
  have : s.dropWhile (fun c => delim.contains c) = [] := by
    rw [List.dropWhile_eq_nil_iff]
    intro c hc
    simpa using h c hc
  rw [this]

/-- The call `strtok` on delimiters, a token and a remainder that is empty or begins with a
delimiter: it returns the token and steps over that one delimiter. -/
theorem strtok_token (delim pre tok rest : List Char) (hpre : ∀ c ∈ pre, c ∈ delim)
    (hne : tok ≠ []) (htok : ∀ c ∈ tok, c ∉ delim)
    (hrest : ∀ c ∈ rest.head?, c ∈ delim) :
    strtok (pre ++ tok ++ rest) delim = (some tok, rest.drop 1) := by
  unfold strtok
  rcases tok with _ | ⟨t, ts⟩
  · exact absurd rfl hne
  have hdrop : (pre ++ (t :: ts) ++ rest).dropWhile (fun c => delim.contains c) =
      t :: (ts ++ rest) := by
    rw [List.append_assoc, List.dropWhile_append_of_pos (fun c hc => by simpa using hpre c hc)]
    have ht : ¬ (delim.contains t = true) := by simpa using htok t (List.mem_cons_self _ _)
    rw [List.cons_append, List.dropWhile_cons_of_neg ht]
  rw [hdrop]
  have hp : ∀ c ∈ t :: ts, (fun x => !delim.contains x) c = true := by
    intro c hc
    simpa using htok c hc
  have hsplit : t :: (ts ++ rest) = (t :: ts) ++ rest := rfl
  simp only
  rw [hsplit, List.takeWhile_append_of_pos hp, List.dropWhile_append_of_pos hp]
  rcases rest with _ | ⟨r, rs⟩
  · simp
  · have hr : (!delim.contains r) = false := by
      simpa using hrest r (by simp)
    simp only [List.takeWhile_cons, List.dropWhile_cons, hr]
    simp

theorem c_str_append (xs ys : List Char) (h : ∀ c ∈ xs, c ≠ Char.ofNat 0) :
    c_str (xs ++ ys) = xs ++ c_str ys := by
  unfold c_str
  exact List.takeWhile_append_of_pos (fun c hc => by simpa using h c hc)

theorem c_str_stop (stop : List Char) (h : ∀ c ∈ stop.head?, c = Char.ofNat 0) :
    c_str stop = [] := by
  rcases stop with _ | ⟨c, cs⟩
  · rfl
  · have : c = Char.ofNat 0 := h c (by simp)
    subst this
    rfl

theorem c_str_head (tail : List Char)
    (h : ∀ c ∈ tail.head?, c ∈ ['\r', '\n', Char.ofNat 0]) :
    ∀ c ∈ (c_str tail).head?, c ∈ ['\r', '\n'] := by
  rcases tail with _ | ⟨t, ts⟩
  · intro c hc
    simp [c_str] at hc
  · intro c hc
    have ht := h t (by simp)
    by_cases h0 : t = Char.ofNat 0
    · subst h0
      simp [c_str] at hc
    · have hts : c_str (t :: ts) = t :: c_str ts := by
        unfold c_str
        exact List.takeWhile_cons_of_pos (by simpa using h0)
      rw [hts] at hc
      simp only [List.head?_cons, Option.mem_def, Option.some.injEq] at hc
      subst hc
      simp only [List.mem_cons, List.mem_singleton, List.not_mem_nil, or_false] at ht ⊢
      rcases ht with ht | ht | ht
      · exact Or.inl ht
      · exact Or.inr ht
      · exact absurd ht h0

/-- The two `strtok` calls on a line without NUL: the verb is the token between the leading
delimiters and the first delimiter after it; the second call starts right after that one
delimiter. -/
theorem parse_line_verb (pre verb rest : List Char) (d : Char)
    (hpre : ∀ c ∈ pre, c ∈ [' ', '\r', '\n']) (hne : verb ≠ [])
    (hverb : ∀ c ∈ verb, c ∉ [' ', '\r', '\n', Char.ofNat 0])
    (hd : d ∈ [' ', '\r', '\n'])
    (hrest : c_str (pre ++ verb ++ d :: rest) = pre ++ verb ++ d :: c_str rest) :
    parse_line (pre ++ verb ++ d :: rest) =
      (some verb, (strtok (c_str rest) ['\r', '\n']).1) := by
  unfold parse_line
  rw [hrest]
  have h1 : strtok (pre ++ verb ++ d :: c_str rest) " \r\n".toList =
      (some verb, (d :: c_str rest).drop 1) := by
    apply strtok_token
    · exact hpre
    · exact hne
    · intro c hc hmem
      have := hverb c hc
      simp only [List.mem_cons, List.mem_singleton, List.not_mem_nil, or_false,
        not_or] at this
      have hmem' : c ∈ [' ', '\r', '\n'] := hmem
      simp only [List.mem_cons, List.mem_singleton, List.not_mem_nil, or_false] at hmem'
      rcases hmem' with h | h | h
      · exact this.1 h
      · exact this.2.1 h
      · exact this.2.2.1 h
    · intro c hc
      simp only [List.head?_cons, Option.mem_def, Option.some.injEq] at hc
      subst hc
      exact hd
  simp only [h1, List.drop_one, List.tail_cons]
  rfl

theorem delim_ne_nul (c : Char) (h : c ∈ [' ', '\r', '\n']) : c ≠ Char.ofNat 0 := by
  simp only [List.mem_cons, List.mem_singleton, List.not_mem_nil, or_false] at h
  rcases h with h | h | h <;> subst h <;> decide

theorem c_str_verb (pre verb rest : List Char) (d : Char)
    (hpre : ∀ c ∈ pre, c ∈ [' ', '\r', '\n'])
    (hverb : ∀ c ∈ verb, c ∉ [' ', '\r', '\n', Char.ofNat 0])
    (hd : d ∈ [' ', '\r', '\n']) :
    c_str (pre ++ verb ++ d :: rest) = pre ++ verb ++ d :: c_str rest := by
  have hsplit : pre ++ verb ++ d :: rest = (pre ++ verb ++ [d]) ++ rest := by simp
  rw [hsplit, c_str_append]
  · simp
  · intro c hc
    simp only [List.mem_append, List.mem_singleton] at hc
    rcases hc with (hc | hc) | hc
    · exact delim_ne_nul c (hpre c hc)
    · intro h0
      exact hverb c hc (by simp [h0])
    · subst hc
      exact delim_ne_nul c hd

/-- C5, as stated, fails: for `CWD  foo\r\n` with two spaces the argument handed to the
handler is ` foo` with its leading space, not `foo`; the session ends up in `/home/ftp/ foo`. -/
theorem parse_line_two_spaces_keeps_space :
    parse_line "CWD  foo\r\n".toList = (some "CWD".toList, some " foo".toList) ∧
      (parse_line "CWD  foo\r\n".toList).2 ≠ some "foo".toList ∧
      handle_command env3 conn0 "CWD  foo\r\n".toList =
        cmd_cwd env3 conn0 (some " foo".toList) ∧
      (handle_command env3 conn0 "CWD  foo\r\n".toList).map (fun r => r.conn.current_dir) =
        some "/home/ftp/ foo".toList := by
  decide

/-- C5, amended: `handle_command` splits the line into a verb, the first run of characters
that are not space, CR or LF, and one optional argument. The argument is taken from the text
after the single delimiter that ends the verb: CR and LF characters at its start are skipped
and the argument runs up to the next CR, LF or end of the text, other spaces included; it is
absent when nothing is left after the skipped characters. -/
theorem parse_line_argument (pre verb nl a tail stop : List Char) (d : Char)
    (hpre : ∀ c ∈ pre, c ∈ [' ', '\r', '\n'])
    (hne : verb ≠ []) (hverb : ∀ c ∈ verb, c ∉ [' ', '\r', '\n', Char.ofNat 0])
    (hd : d ∈ [' ', '\r', '\n'])
    (hnl : ∀ c ∈ nl, c ∈ ['\r', '\n'])
    (hane : a ≠ []) (ha : ∀ c ∈ a, c ∉ ['\r', '\n', Char.ofNat 0])
    (htail : ∀ c ∈ tail.head?, c ∈ ['\r', '\n', Char.ofNat 0])
    (hstop : ∀ c ∈ stop.head?, c = Char.ofNat 0) :
    parse_line (pre ++ verb ++ d :: (nl ++ a ++ tail)) = (some verb, some a) ∧
      parse_line (pre ++ verb ++ d :: (nl ++ stop)) = (some verb, none) ∧
      parse_line (pre ++ verb ++ stop) = (some verb, none) ∧
      parse_line (pre ++ stop) = (none, none) := by
  have hnl0 : ∀ c ∈ nl, c ≠ Char.ofNat 0 := by
    intro c hc
    have := hnl c hc
    simp only [List.mem_cons, List.mem_singleton, List.not_mem_nil, or_false] at this
    rcases this with h | h <;> subst h <;> decide
  have hverb0 : ∀ c ∈ verb, c ≠ Char.ofNat 0 := fun c hc h0 => hverb c hc (by simp [h0])
  have hverbd : ∀ c ∈ verb, c ∉ " \r\n".toList := by
    intro c hc hmem
    have hmem' : c ∈ [' ', '\r', '\n'] := hmem
    have := hverb c hc
    simp only [List.mem_cons, List.mem_singleton, List.not_mem_nil, or_false, not_or]
      at this hmem'
    rcases hmem' with h | h | h
    · exact this.1 h
    · exact this.2.1 h
    · exact this.2.2.1 h
  refine ⟨?_, ?_, ?_, ?_⟩
  · rw [parse_line_verb pre verb _ d hpre hne hverb hd (c_str_verb pre verb _ d hpre hverb hd)]
    have hc : c_str (nl ++ a ++ tail) = nl ++ a ++ c_str tail := by
      apply c_str_append
      intro c hc
      rcases List.mem_append.mp hc with hc | hc
      · exact hnl0 c hc
      · intro h0
        exact ha c hc (by simp [h0])
    rw [hc, strtok_token ['\r', '\n'] nl a (c_str tail) hnl hane
      (fun c hc hmem => ha c hc (by
        simp only [List.mem_cons, List.mem_singleton, List.not_mem_nil, or_false] at hmem ⊢
        rcases hmem with h | h
        · exact Or.inl h
        · exact Or.inr (Or.inl h)))
      (c_str_head tail htail)]
  · rw [parse_line_verb pre verb _ d hpre hne hverb hd (c_str_verb pre verb _ d hpre hverb hd)]
    rw [c_str_append nl stop hnl0, c_str_stop stop hstop, List.append_nil,
      strtok_none nl _ hnl]
  · unfold parse_line
    have hc : c_str (pre ++ verb ++ stop) = pre ++ verb ++ [] := by
      rw [c_str_append, c_str_stop stop hstop]
      intro c hc
      rcases List.mem_append.mp hc with hc | hc
      · exact delim_ne_nul c (hpre c hc)
      · exact hverb0 c hc
    rw [hc, strtok_token " \r\n".toList pre verb [] hpre hne hverbd (by simp)]
    rfl
  · unfold parse_line
    rw [c_str_append pre stop (fun c hc => delim_ne_nul c (hpre c hc)), c_str_stop stop hstop,
      List.append_nil, strtok_none pre " \r\n".toList hpre]
    rfl

theorem parse_line_argument_witness :
    parse_line "CWD  foo\r\n".toList = (some "CWD".toList, some " foo".toList) ∧
      parse_line "CWD ".toList = (some "CWD".toList, none) ∧
      parse_line "CWD".toList = (some "CWD".toList, none) ∧
      parse_line [] = (none, none) :=
  parse_line_argument [] "CWD".toList [] " foo".toList "\r\n".toList [] ' '
    (by decide) (by decide) (by decide) (by decide) (by decide) (by decide) (by decide)
    (by decide) (by decide)

/-! ## Bare listing -/

theorem list_directory_loop_eq (entries : List (List Char))
    (hname : ∀ e ∈ entries, e.length + 2 < BUFFER_SIZE) :
    list_directory_loop entries =
      (entries.filter (fun e => decide (e ≠ ".".toList ∧ e ≠ "..".toList))).map
        (fun e => e ++ "\r\n".toList) := by
  induction entries with
  | nil => rfl
  | cons e es ih =>
    have ihs := ih (fun x hx => hname x (List.mem_cons_of_mem _ hx))
    unfold list_directory_loop
    by_cases hdot : e = ".".toList ∨ e = "..".toList
    · rw [if_pos hdot, ihs]
      have : decide (e ≠ ".".toList ∧ e ≠ "..".toList) = false := by
        rw [decide_eq_false_iff_not]
        intro h
        rcases hdot with hd | hd
        · exact h.1 hd
        · exact h.2 hd
      simp only [List.filter_cons, this, Bool.false_eq_true, if_false]
    · rw [if_neg hdot, ihs]
      have hkeep : decide (e ≠ ".".toList ∧ e ≠ "..".toList) = true := by
        rw [decide_eq_true_iff]
        exact ⟨fun h => hdot (Or.inl h), fun h => hdot (Or.inr h)⟩
      simp only [List.filter_cons, hkeep, if_true, List.map_cons]
      have hlen : (e ++ "\r\n".toList).length ≤ BUFFER_SIZE - 1 := by
        have := hname e (List.mem_cons_self _ _)
        have h2 : ("\r\n".toList).length = 2 := rfl
        rw [List.length_append, h2]
        omega
      have : (snprintf BUFFER_SIZE (e ++ "\r\n".toList)).1 = e ++ "\r\n".toList := by
        unfold snprintf
        exact List.take_of_length_le hlen
      rw [this]

/-- C6: for every sequence of entry names the enumeration returns (a `d_name` holds at most
255 characters, so each line fits the buffer of `BUFFER_SIZE` bytes), `list_directory` emits exactly the entries whose name is neither `.` nor
`..`, in enumeration order, each as the name followed by CRLF: it emits no line for `.` or
`..` and it keeps every other entry. -/
theorem list_directory_skips_dot_entries (env : Env) (socket : Int)
    (path : List Char) (entries : List (List Char))
    (hopen : env.opendir path = some entries)
    (hname : ∀ e ∈ entries, e.length + 2 < BUFFER_SIZE) :
    list_directory env socket path =
        (entries.filter (fun e => decide (e ≠ ".".toList ∧ e ≠ "..".toList))).map
          (fun e => e ++ "\r\n".toList) ∧
      ".\r\n".toList ∉ list_directory env socket path ∧
      "..\r\n".toList ∉ list_directory env socket path ∧
      ∀ e ∈ entries, e ≠ ".".toList → e ≠ "..".toList →
        e ++ "\r\n".toList ∈ list_directory env socket path := by
  have heq : list_directory env socket path =
      (entries.filter (fun e => decide (e ≠ ".".toList ∧ e ≠ "..".toList))).map
        (fun e => e ++ "\r\n".toList) := by
    unfold list_directory
    rw [hopen]
    exact list_directory_loop_eq entries hname
  have hcancel : ∀ a b : List Char, a ++ "\r\n".toList = b ++ "\r\n".toList → a = b :=
    fun a b h => List.append_cancel_right h
  refine ⟨heq, ?_, ?_, ?_⟩
  · rw [heq]
    intro hmem
    rcases List.mem_map.mp hmem with ⟨e, he, hline⟩
    have hne := (List.mem_filter.mp he).2
    rw [decide_eq_true_iff] at hne
    exact hne.1 (hcancel e ".".toList hline)
  · rw [heq]
    intro hmem
    rcases List.mem_map.mp hmem with ⟨e, he, hline⟩
    have hne := (List.mem_filter.mp he).2
    rw [decide_eq_true_iff] at hne
    exact hne.2 (hcancel e "..".toList hline)
  · intro e he h1 h2
    rw [heq]
    exact List.mem_map.mpr ⟨e, List.mem_filter.mpr ⟨he, by
      rw [decide_eq_true_iff]
      exact ⟨h1, h2⟩⟩, rfl⟩

theorem list_directory_skips_dot_entries_witness :
    list_directory env0 5 "/home/ftp".toList =
      ["a.txt\r\n".toList, ".hidden\r\n".toList, "...\r\n".toList] :=
  (list_directory_skips_dot_entries env0 5 "/home/ftp".toList
    [".".toList, "..".toList, "a.txt".toList, ".hidden".toList, "...".toList] rfl
    (by decide)).1.trans (by decide)

/-! ## Accept failures -/

/-- C7: when `accept` on the data listener fails, each of the handlers of NLST, LIST, RETR
and STOR sends the opening response and then the data-connection error (425), sends no
`226 Transfer complete`, returns `false` and leaves the session, with its working directory
and its two sockets, as it was; nothing is sent on a data connection and no file is
created. -/
theorem transfer_accept_failure (env : Env) (conn : ClientConnection)
    (arg : Option (List Char)) (h : env.accept conn.data_socket < 0) :
    cmd_nlst env conn arg =
        some { conn := conn, responses := [MSG_LIST_START, MSG_DATA_CONN_FAIL], data := [],
               stored := none, terminate := false } ∧
      cmd_dir env conn arg =
        some { conn := conn, responses := [MSG_LIST_START, MSG_DATA_CONN_FAIL], data := [],
               stored := none, terminate := false } ∧
      cmd_retr env conn arg =
        some { conn := conn, responses := [MSG_STOR_START, MSG_DATA_CONN_FAIL], data := [],
               stored := none, terminate := false } ∧
      cmd_stor env conn arg =
        some { conn := conn, responses := [MSG_STOR_START, MSG_DATA_CONN_FAIL], data := [],
               stored := none, terminate := false } ∧
      MSG_LIST_END ∉ [MSG_LIST_START, MSG_DATA_CONN_FAIL] ∧
      MSG_RETR_END ∉ [MSG_STOR_START, MSG_DATA_CONN_FAIL] := by
  refine ⟨?_, ?_, ?_, ?_, by decide, by decide⟩
  · simp only [cmd_nlst, h, if_true, send_response_list_start, send_response_data_conn_fail]
  · simp only [cmd_dir, h, if_true, send_response_list_start, send_response_data_conn_fail]
  · simp only [cmd_retr, h, if_true, send_response_stor_start, send_response_data_conn_fail]
  · simp only [cmd_stor, h, if_true, send_response_stor_start, send_response_data_conn_fail]

theorem transfer_accept_failure_witness :
    handle_command env4 conn0 "NLST\r\n".toList =
        some { conn := conn0, responses := [MSG_LIST_START, MSG_DATA_CONN_FAIL], data := [],
               stored := none, terminate := false } ∧
      cmd_nlst env4 conn0 none =
        some { conn := conn0, responses := [MSG_LIST_START, MSG_DATA_CONN_FAIL], data := [],
               stored := none, terminate := false } :=
  ⟨by decide, (transfer_accept_failure env4 conn0 none (by decide)).1⟩

/-! ## Calls that transfer part of a chunk -/

/-- C8, as stated, fails: a `send` that accepts 3 bytes of the 7-byte chunk `content` is not
followed by another `send` for the other 4, and a `write` that accepts 2 bytes of each
received chunk is not repeated either; without any I/O error the bytes delivered are `con`
and `cote`, not the source bytes `content`. -/
theorem transfer_drops_unsent_remainder :
    env2.open_rdonly "/home/ftp/a".toList = some "content".toList ∧
      send_file env2 5 "/home/ftp/a".toList = ["content".toList] ∧
      delivered (fun _ _ => 3) 0 (send_file env2 5 "/home/ftp/a".toList) = "con".toList ∧
      receive_file env2 5 "/home/ftp/b".toList = some ["con".toList, "tent".toList] ∧
      (receive_file env2 5 "/home/ftp/b".toList).map (delivered (fun _ _ => 2) 0) =
        some "cote".toList ∧
      "con".toList ≠ "content".toList ∧ "cote".toList ≠ "content".toList := by
  decide

/-- C8, amended: `send_file` hands every chunk it reads from the file to one `send`, and
`receive_file` hands every chunk it receives to one `write`; neither looks at the result nor
calls again for the rest. So the bytes delivered are the source's bytes exactly when every
`send` (or `write`) accepts its whole chunk. -/
theorem transfer_complete_iff_whole_chunks (env : Env) (socket socket' : Int)
    (filename filename' content : List Char) (chunks : List (List Char))
    (send_ret write_ret : Nat → Nat → Int)
    (hopen : env.open_rdonly filename = some content)
    (hcreate : env.open_wronly filename' = true)
    (hsize : ∀ c ∈ chunks, 0 < c.length ∧ c.length ≤ BUFFER_SIZE)
    (hrecv : env.recv = chunks.map some) :
    (send_file env socket filename).flatten = content ∧
      (delivered send_ret 0 (send_file env socket filename) = content ↔
        ∀ i (h : i < (send_file env socket filename).length),
          ((send_file env socket filename).get ⟨i, h⟩).length ≤
            (send_ret i ((send_file env socket filename).get ⟨i, h⟩).length).toNat) ∧
      receive_file env socket' filename' = some chunks ∧
      ((receive_file env socket' filename').map (delivered write_ret 0) =
          some chunks.flatten ↔
        ∀ i (h : i < chunks.length),
          (chunks.get ⟨i, h⟩).length ≤ (write_ret i (chunks.get ⟨i, h⟩).length).toNat) := by
  have hflat := send_file_flatten env socket filename content hopen
  have hrf : receive_file env socket' filename' = some chunks := by
    unfold receive_file
    rw [hcreate, hrecv, receive_file_loop_chunks chunks (fun c hc => (hsize c hc).1)]
    rfl
  refine ⟨hflat, ?_, hrf, ?_⟩
  · have key := delivered_eq_flatten_iff send_ret 0 (send_file env socket filename)
    rw [hflat] at key
    simpa using key
  · rw [hrf]
    have key := delivered_eq_flatten_iff write_ret 0 chunks
    simpa using key

theorem transfer_complete_iff_whole_chunks_witness :
    (send_file env2 5 "/home/ftp/a".toList).flatten = "content".toList ∧
      (delivered (fun _ _ => 3) 0 (send_file env2 5 "/home/ftp/a".toList) =
          "content".toList ↔
        ∀ i (h : i < (send_file env2 5 "/home/ftp/a".toList).length),
          ((send_file env2 5 "/home/ftp/a".toList).get ⟨i, h⟩).length ≤
            ((fun _ _ => 3 : Nat → Nat → Int) i
              ((send_file env2 5 "/home/ftp/a".toList).get ⟨i, h⟩).length).toNat) ∧
      receive_file env2 6 "/home/ftp/b".toList = some ["con".toList, "tent".toList] ∧
      ((receive_file env2 6 "/home/ftp/b".toList).map (delivered (fun _ n => (n : Int)) 0) =
          some ["con".toList, "tent".toList].flatten ↔
        ∀ i (h : i < ["con".toList, "tent".toList].length),
          (["con".toList, "tent".toList].get ⟨i, h⟩).length ≤
            ((fun _ n => (n : Int) : Nat → Nat → Int) i
              (["con".toList, "tent".toList].get ⟨i, h⟩).length).toNat) :=
  transfer_complete_iff_whole_chunks env2 5 6 "/home/ftp/a".toList "/home/ftp/b".toList
    "content".toList ["con".toList, "tent".toList] (fun _ _ => 3) (fun _ n => (n : Int))
    rfl rfl (by decide) rfl

/-! ## Dispatch -/

theorem strcasecmp_eq_zero_iff (a b : List Char) :
    strcasecmp a b = 0 ↔ a.map Char.toLower = b.map Char.toLower := by
  unfold strcasecmp
  by_cases h : a.map Char.toLower = b.map Char.toLower
  · simp [h]
  · rw [if_neg h]
    by_cases h2 : a.map Char.toLower < b.map Char.toLower
    · rw [if_pos h2]
      simp [h]
    · rw [if_neg h2]
      simp [h]

theorem strcasecmp_beq (a b : List Char) :
    (strcasecmp a b == 0) = decide (a.map Char.toLower = b.map Char.toLower) := by
  by_cases h : a.map Char.toLower = b.map Char.toLower
  · have := (strcasecmp_eq_zero_iff a b).mpr h
    simp [this, h]
  · have : strcasecmp a b ≠ 0 := fun h0 => h ((strcasecmp_eq_zero_iff a b).mp h0)
    simp [this, h]

/-- The table lookup of `handle_command` finds the entry whose name agrees with the verb up
to letter case: no two names of the table agree up to case. -/
theorem ftp_commands_find (cmd : FtpCommand) (hcmd : cmd ∈ ftp_commands) (verb : List Char)
    (h : verb.map Char.toLower = cmd.command.map Char.toLower) :
    ftp_commands.find? (fun c => strcasecmp verb c.command == 0) = some cmd := by
  simp only [strcasecmp_beq, h]
  simp only [ftp_commands, List.mem_cons, List.mem_singleton, List.not_mem_nil, or_false]
    at hcmd
  rcases hcmd with rfl | rfl | rfl | rfl | rfl | rfl | rfl | rfl | rfl | rfl | rfl <;> rfl

/-- Only the handler of QUIT returns `true`. -/
theorem handler_terminate (cmd : FtpCommand) (hcmd : cmd ∈ ftp_commands) (env : Env)
    (conn : ClientConnection) (arg : Option (List Char))
    (h : (cmd.handler env conn arg).map Result.terminate = some true) :
    cmd.command = "QUIT".toList := by
  simp only [ftp_commands, List.mem_cons, List.mem_singleton, List.not_mem_nil, or_false]
    at hcmd
  rcases hcmd with rfl | rfl | rfl | rfl | rfl | rfl | rfl | rfl | rfl | rfl | rfl
  · simp [cmd_user] at h
  · simp [cmd_pass] at h
  · simp [cmd_pwd] at h
  · simp only [cmd_cwd] at h
    split at h <;> simp at h
  · simp [cmd_type] at h
  · simp [cmd_pasv] at h
  · simp only [cmd_nlst] at h
    split at h <;> simp at h
  · simp only [cmd_retr] at h
    split at h
    · simp at h
    · split at h <;> simp at h
  · simp only [cmd_stor] at h
    split at h
    · simp at h
    · split at h <;> simp at h
  · rfl
  · simp only [cmd_dir] at h
    split at h <;> simp at h

theorem handle_command_unfold (env : Env) (conn : ClientConnection) (buffer : List Char) :
    handle_command env conn buffer =
      match (parse_line buffer).1 with
      | none =>
        some { conn := conn, responses := [send_response MSG_SYNTAX_ERROR], data := [],
               stored := none, terminate := false }
      | some command =>
        match ftp_commands.find? (fun cmd => strcasecmp command cmd.command == 0) with
        | some cmd => cmd.handler env conn (parse_line buffer).2
        | none =>
          some { conn := conn, responses := [send_response MSG_NOT_IMPLEMENTED], data := [],
                 stored := none, terminate := false } := by
  unfold handle_command
  rcases parse_line buffer with ⟨command, arg⟩
  rfl

theorem handle_command_quit (env : Env) (conn : ClientConnection) (buffer verb : List Char)
    (hverb : (parse_line buffer).1 = some verb) (hquit : strcasecmp verb "QUIT".toList = 0) :
    handle_command env conn buffer =
      some { conn := conn, responses := [MSG_GOODBYE], data := [], stored := none,
             terminate := true } := by
  rw [handle_command_unfold, hverb]
  simp only
  rw [ftp_commands_find ⟨"QUIT".toList, cmd_quit⟩ (by simp [ftp_commands]) verb
    ((strcasecmp_eq_zero_iff _ _).mp hquit)]
  simp only [cmd_quit, send_response_goodbye]

theorem handle_command_terminate_verb (env : Env) (conn : ClientConnection)
    (buffer : List Char)
    (h : (handle_command env conn buffer).map Result.terminate = some true) :
    ∃ verb, (parse_line buffer).1 = some verb ∧ strcasecmp verb "QUIT".toList = 0 := by
  rw [handle_command_unfold] at h
  split at h
  · simp at h
  · rename_i verb hverb
    refine ⟨verb, hverb, ?_⟩
    split at h
    · rename_i cmd hfind
      have hmem := List.mem_of_find?_eq_some hfind
      have hp := List.find?_some hfind
      have hname := handler_terminate cmd hmem env conn _ h
      rw [hname] at hp
      simpa using hp
    · simp at h

/-- C9: `handle_command` returns `true` exactly when the verb of the line equals QUIT up to
letter case, and then it sends the goodbye response (221) and nothing else and leaves the
session as it is. The claim that every other line returns `false` fails on the line
`CWD\r\n`: the handler is called with an absent argument, `change_directory` reads `path[0]`
through the null pointer and `handle_command` returns nothing. -/
theorem handle_command_terminate_iff_quit (env : Env) (conn : ClientConnection)
    (buffer : List Char) :
    ((handle_command env conn buffer).map Result.terminate = some true ↔
        ∃ verb, (parse_line buffer).1 = some verb ∧ strcasecmp verb "QUIT".toList = 0) ∧
      (handle_command env conn buffer =
          some { conn := conn, responses := [MSG_GOODBYE], data := [], stored := none,
                 terminate := true } ↔
        ∃ verb, (parse_line buffer).1 = some verb ∧ strcasecmp verb "QUIT".toList = 0) ∧
      (parse_line "CWD\r\n".toList).1 = some "CWD".toList ∧
      strcasecmp "CWD".toList "QUIT".toList ≠ 0 ∧
      handle_command env conn "CWD\r\n".toList = none := by
  refine ⟨⟨handle_command_terminate_verb env conn buffer, ?_⟩, ⟨?_, ?_⟩, by decide, by decide,
    rfl⟩
  · rintro ⟨verb, hverb, hquit⟩
    rw [handle_command_quit env conn buffer verb hverb hquit]
    rfl
  · intro h
    exact handle_command_terminate_verb env conn buffer (by rw [h]; rfl)
  · rintro ⟨verb, hverb, hquit⟩
    exact handle_command_quit env conn buffer verb hverb hquit

/-! ## Letter case of the verb -/

theorem c_str_head_delim (rest : List Char)
    (h : ∀ c ∈ rest.head?, c ∈ [' ', '\r', '\n', Char.ofNat 0]) :
    ∀ c ∈ (c_str rest).head?, c ∈ [' ', '\r', '\n'] := by
  rcases rest with _ | ⟨t, ts⟩
  · intro c hc
    simp [c_str] at hc
  · intro c hc
    have ht := h t (by simp)
    by_cases h0 : t = Char.ofNat 0
    · subst h0
      simp [c_str] at hc
    · have hts : c_str (t :: ts) = t :: c_str ts := by
        unfold c_str
        exact List.takeWhile_cons_of_pos (by simpa using h0)
      rw [hts] at hc
      simp only [List.head?_cons, Option.mem_def, Option.some.injEq] at hc
      subst hc
      simp only [List.mem_cons, List.mem_singleton, List.not_mem_nil, or_false] at ht ⊢
      rcases ht with ht | ht | ht | ht
      · exact Or.inl ht
      · exact Or.inr (Or.inl ht)
      · exact Or.inr (Or.inr ht)
      · exact absurd ht h0

/-- The two `strtok` calls on a verb that is followed by a delimiter, a NUL or nothing: the
argument does not depend on the verb. -/
theorem parse_line_token (pre verb rest : List Char)
    (hpre : ∀ c ∈ pre, c ∈ [' ', '\r', '\n']) (hne : verb ≠ [])
    (hverb : ∀ c ∈ verb, c ∉ [' ', '\r', '\n', Char.ofNat 0])
    (hrest : ∀ c ∈ rest.head?, c ∈ [' ', '\r', '\n', Char.ofNat 0]) :
    parse_line (pre ++ verb ++ rest) =
      (some verb, (strtok ((c_str rest).drop 1) ['\r', '\n']).1) := by
  unfold parse_line
  have hc : c_str (pre ++ verb ++ rest) = pre ++ verb ++ c_str rest := by
    apply c_str_append
    intro c hc
    rcases List.mem_append.mp hc with hc | hc
    · exact delim_ne_nul c (hpre c hc)
    · intro h0
      exact hverb c hc (by simp [h0])
  have hverbd : ∀ c ∈ verb, c ∉ " \r\n".toList := by
    intro c hc hmem
    have hmem' : c ∈ [' ', '\r', '\n'] := hmem
    have := hverb c hc
    simp only [List.mem_cons, List.mem_singleton, List.not_mem_nil, or_false, not_or]
      at this hmem'
    rcases hmem' with h | h | h
    · exact this.1 h
    · exact this.2.1 h
    · exact this.2.2.1 h
  rw [hc, strtok_token " \r\n".toList pre verb (c_str rest) hpre hne hverbd
    (c_str_head_delim rest hrest)]
  rfl

theorem toLower_of_delim (c : Char) (h : c ∈ [' ', '\r', '\n', Char.ofNat 0]) :
    c.toLower = c := by
  simp only [List.mem_cons, List.mem_singleton, List.not_mem_nil, or_false] at h
  rcases h with h | h | h | h <;> subst h <;> decide

theorem ftp_commands_names :
    ∀ cmd ∈ ftp_commands, cmd.command ≠ [] ∧
      ∀ x ∈ cmd.command.map Char.toLower, x ∉ [' ', '\r', '\n', Char.ofNat 0] := by
  decide

/-- A spelling of a table verb in any letter case is a non-empty token. -/
theorem verb_spelling_token (cmd : FtpCommand) (hcmd : cmd ∈ ftp_commands)
    (verb : List Char) (h : verb.map Char.toLower = cmd.command.map Char.toLower) :
    verb ≠ [] ∧ ∀ c ∈ verb, c ∉ [' ', '\r', '\n', Char.ofNat 0] := by
  have hn := ftp_commands_names cmd hcmd
  constructor
  · intro hnil
    subst hnil
    have : cmd.command.map Char.toLower = [] := h.symm
    exact hn.1 (List.map_eq_nil_iff.mp this)
  · intro c hc hd
    have hmem : c.toLower ∈ verb.map Char.toLower := List.mem_map_of_mem _ hc
    rw [h, toLower_of_delim c hd] at hmem
    exact hn.2 c hmem hd

/-- C10: for every verb of the command table and every spelling of it that differs only in
letter case, a line with that spelling (after any leading spaces, CRs and LFs, and followed
by a delimiter, a NUL or the end of the buffer) is dispatched to the handler of the table
entry with the same argument as the line with the upper-case spelling, so the two lines have
the same outcome. -/
theorem handle_command_case_insensitive (env : Env) (conn : ClientConnection)
    (cmd : FtpCommand) (pre verb rest : List Char) (hcmd : cmd ∈ ftp_commands)
    (hverb : verb.map Char.toLower = cmd.command.map Char.toLower)
    (hpre : ∀ c ∈ pre, c ∈ [' ', '\r', '\n'])
    (hrest : ∀ c ∈ rest.head?, c ∈ [' ', '\r', '\n', Char.ofNat 0]) :
    parse_line (pre ++ verb ++ rest) =
        (some verb, (parse_line (pre ++ cmd.command ++ rest)).2) ∧
      handle_command env conn (pre ++ verb ++ rest) =
        cmd.handler env conn (parse_line (pre ++ cmd.command ++ rest)).2 ∧
      handle_command env conn (pre ++ verb ++ rest) =
        handle_command env conn (pre ++ cmd.command ++ rest) := by
  have hv := verb_spelling_token cmd hcmd verb hverb
  have hu := verb_spelling_token cmd hcmd cmd.command rfl
  have hpv := parse_line_token pre verb rest hpre hv.1 hv.2 hrest
  have hpu := parse_line_token pre cmd.command rest hpre hu.1 hu.2 hrest
  have hhv : handle_command env conn (pre ++ verb ++ rest) =
      cmd.handler env conn (parse_line (pre ++ cmd.command ++ rest)).2 := by
    rw [handle_command_unfold, hpv, hpu]
    simp only
    rw [ftp_commands_find cmd hcmd verb hverb]
  have hhu : handle_command env conn (pre ++ cmd.command ++ rest) =
      cmd.handler env conn (parse_line (pre ++ cmd.command ++ rest)).2 := by
    rw [handle_command_unfold, hpu]
    simp only
    rw [ftp_commands_find cmd hcmd cmd.command rfl]
  refine ⟨?_, hhv, ?_⟩
  · rw [hpv, hpu]
  · rw [hhv, hhu]

theorem handle_command_case_insensitive_witness :
    parse_line "rEtR a.txt\r\n".toList =
        (some "rEtR".toList, (parse_line "RETR a.txt\r\n".toList).2) ∧
      handle_command env0 conn0 "rEtR a.txt\r\n".toList =
        cmd_retr env0 conn0 (parse_line "RETR a.txt\r\n".toList).2 ∧
      handle_command env0 conn0 "rEtR a.txt\r\n".toList =
        handle_command env0 conn0 "RETR a.txt\r\n".toList :=
  handle_command_case_insensitive env0 conn0 ⟨"RETR".toList, cmd_retr⟩ [] "rEtR".toList
    " a.txt\r\n".toList (by simp [ftp_commands]) (by decide) (by decide) (by decide)

/-! ## Lines that name no verb of the table -/

theorem send_response_syntax_error :
    send_response MSG_SYNTAX_ERROR = MSG_SYNTAX_ERROR := by decide

theorem send_response_not_implemented :
    send_response MSG_NOT_IMPLEMENTED = MSG_NOT_IMPLEMENTED := by decide

/-- The call `strtok` returns `NULL` exactly when only delimiters are left to scan. -/
theorem strtok_fst_none_iff (s delim : List Char) :
    (strtok s delim).1 = none ↔ ∀ c ∈ s, c ∈ delim := by
  constructor
  · intro h
    unfold strtok at h
    split at h
    · rename_i hd
      intro c hc
      simpa using (List.dropWhile_eq_nil_iff.mp hd) c hc
    · simp at h
  · intro h
    rw [strtok_none s delim h]

theorem parse_line_no_verb_iff (buffer : List Char) :
    (parse_line buffer).1 = none ↔ ∀ c ∈ c_str buffer, c ∈ [' ', '\r', '\n'] :=
  strtok_fst_none_iff (c_str buffer) " \r\n".toList

/-- C11: for every received line that names no verb of the command table, `handle_command`
sends exactly one response, leaves the session as it is and returns `false`: the response is
the syntax error (500) when the line holds no verb token, that is only spaces, CRs and LFs
or nothing, and not-implemented (502) when its verb token agrees with no name of the table
up to letter case. No name of the table agrees with MRETR. -/
theorem handle_command_unknown_verb (env : Env) (conn : ClientConnection)
    (buffer : List Char)
    (hunknown : ∀ verb, (parse_line buffer).1 = some verb →
      ∀ cmd ∈ ftp_commands, strcasecmp verb cmd.command ≠ 0) :
    handle_command env conn buffer =
        some { conn := conn,
               responses := [if ∀ c ∈ c_str buffer, c ∈ [' ', '\r', '\n']
                 then MSG_SYNTAX_ERROR else MSG_NOT_IMPLEMENTED],
               data := [], stored := none, terminate := false } ∧
      ((parse_line buffer).1 = none ↔ ∀ c ∈ c_str buffer, c ∈ [' ', '\r', '\n']) ∧
      ∀ cmd ∈ ftp_commands, strcasecmp "MRETR".toList cmd.command ≠ 0 := by
  refine ⟨?_, parse_line_no_verb_iff buffer, by decide⟩
  rw [handle_command_unfold]
  cases hv : (parse_line buffer).1 with
  | none =>
    have hall := (parse_line_no_verb_iff buffer).mp hv
    simp only [send_response_syntax_error]
    rw [if_pos hall]
  | some verb =>
    have hnone : ftp_commands.find? (fun cmd => strcasecmp verb cmd.command == 0) = none := by
      rw [List.find?_eq_none]
      intro cmd hcmd
      simpa using hunknown verb hv cmd hcmd
    have hnall : ¬ ∀ c ∈ c_str buffer, c ∈ [' ', '\r', '\n'] := by
      intro hall
      have := (parse_line_no_verb_iff buffer).mpr hall
      rw [hv] at this
      exact absurd this (by simp)
    simp only [hnone, send_response_not_implemented]
    rw [if_neg hnall]

theorem handle_command_unknown_verb_witness :
    handle_command env0 conn0 "MRETR a.txt b.txt\r\n".toList =
        some { conn := conn0, responses := [MSG_NOT_IMPLEMENTED], data := [], stored := none,
               terminate := false } ∧
      handle_command env0 conn0 " \r\n".toList =
        some { conn := conn0, responses := [MSG_SYNTAX_ERROR], data := [], stored := none,
               terminate := false } ∧
      (cmd_mretr env0 conn0 (some "a.txt b.txt".toList)).map Result.responses =
        some [MSG_STOR_START, MSG_RETR_END, MSG_STOR_START, MSG_RETR_END] :=
  ⟨(handle_command_unknown_verb env0 conn0 "MRETR a.txt b.txt\r\n".toList (by
      intro verb h
      have hp : (parse_line "MRETR a.txt b.txt\r\n".toList).1 = some "MRETR".toList := by
        decide
      rw [hp] at h
      cases h
      decide)).1.trans (by decide),
   (handle_command_unknown_verb env0 conn0 " \r\n".toList (by
      intro verb h
      have hp : (parse_line " \r\n".toList).1 = none := by decide
      rw [hp] at h
      cases h)).1.trans (by decide),
   by decide⟩

/-! ## Permission string -/

/-- C13: the claim that a handler that reads its argument is only called with one fails on
the code. For every line whose verb is CWD in any letter case and whose argument is absent,
as in `CWD\r\n`, `handle_command` calls `cmd_cwd` with the null pointer and
`change_directory` reads `path[0]` through it: no response is sent and the call has no
defined result. -/
theorem handle_command_cwd_absent_argument (env : Env) (conn : ClientConnection)
    (buffer verb : List Char) (hline : parse_line buffer = (some verb, none))
    (hcwd : strcasecmp verb "CWD".toList = 0) :
    handle_command env conn buffer = cmd_cwd env conn none ∧
      change_directory env conn none = none ∧
      handle_command env conn buffer = none := by
  have hdispatch : handle_command env conn buffer = cmd_cwd env conn none := by
    rw [handle_command_unfold, hline]
    simp only
    rw [ftp_commands_find ⟨"CWD".toList, cmd_cwd⟩ (by simp [ftp_commands]) verb
      ((strcasecmp_eq_zero_iff _ _).mp hcwd)]
  refine ⟨hdispatch, rfl, ?_⟩
  rw [hdispatch]
  rfl

theorem handle_command_cwd_absent_argument_witness :
    handle_command env0 conn0 "CWD\r\n".toList = cmd_cwd env0 conn0 none ∧
      change_directory env0 conn0 none = none ∧
      handle_command env0 conn0 "CWD\r\n".toList = none :=
  handle_command_cwd_absent_argument env0 conn0 "CWD\r\n".toList "CWD".toList (by decide)
    (by decide)

end FtpServer
